import Mathlib

set_option maxHeartbeats 1000000

/-!
Shallow embedding of the hybrid retrieval core of `app.py` (VicEduTutor):
the metadata filter, the hybrid retriever `query_graph_rag`, and the
relevance gate `is_query_relevant`, together with the static tables they
use.  The external collaborators (the sentence-transformer embedding
model and the faiss vector index) are modelled as components of an
explicit environment record; calls to them are recorded in a trace so
that properties about which external operations are performed can be
stated.  A `none` result of the retriever models an uncaught Python
exception escaping the function.
-/

namespace VicEduTutor

/-- Occurrence test on character lists, first stage: does the second list
start with the first?  Models Python string methods used to explain the
`in` operator. -/
def strStarts : List Char → List Char → Bool
  | [], _ => true
  | _ :: _, [] => false
  | a :: as, b :: bs => a == b && strStarts as bs

/-- Occurrence test on character lists: does the first list occur
contiguously inside the second?  This models the Python `in` operator on
strings (`needle in hay`), used in `app.py` lines 48 and 244. -/
def strOccurs (p : List Char) : List Char → Bool
  | [] => strStarts p []
  | c :: cs => strStarts p (c :: cs) || strOccurs p cs

/-- Substring containment on strings: `strIn needle hay` models the
Python expression `needle in hay` for strings. -/
def strIn (needle hay : String) : Bool :=
  strOccurs needle.data hay.data

/-- Metadata carried by a curriculum chunk (`chunk["metadata"]` in
`curriculum_metadata.json`): a learning area and a level tag. -/
structure ChunkMeta where
  learning_area : String
  level : String
deriving DecidableEq, Repr

/-- One curriculum chunk of the metadata store: an id, its text and its
metadata. -/
structure Chunk where
  id : String
  text : String
  metadata : ChunkMeta
deriving DecidableEq, Repr

/-- One retrieved excerpt, as appended in `app.py` lines 68–71: the
chunk id and its text. -/
structure Excerpt where
  chunk_id : String
  text : String
deriving DecidableEq, Repr

/-- Line 31 of `app.py`: the dropdown options
`["Foundation"] + [f"Year i" for i in range(1, 11)]`. -/
def levels : List String :=
  "Foundation" :: (List.range 10).map (fun i => "Year " ++ toString (i + 1))

/-- Modelled from the spec: line 42 of `app.py`, which was meant to build
the Level Map, reads
`level_map = {"Foundation": "Foundation"} | {f"YearElena: "Level {i}" for i in range(1, 11)}`
and is not syntactically well-formed Python (the f-string terminates
before the bare identifier `Level`, an unterminated string literal
follows), so the dictionary it was meant to build is missing from the
source.  The spec defines the Level Map as the fixed table sending
`"Foundation"` to `"Foundation"` and `"Year i"` to `"Level i"` for `i`
in `1..10`; this definition follows those words, as an association
list. -/
def level_map : List (String × String) :=
  ("Foundation", "Foundation") ::
    (List.range 10).map (fun i =>
      ("Year " ++ toString (i + 1), "Level " ++ toString (i + 1)))

/-- Lookup in the reversed Level Map, used to state the round-trip
property of the spec. -/
def level_map_inv (t : String) : Option String :=
  (level_map.map (fun p => (p.2, p.1))).lookup t

/-- Lines 45–49 of `app.py`: the Metadata Filter.  It keeps the pairs
`(i, chunk)` of `enumerate(metadata_store)` whose learning area equals
the selected one and whose level tag contains the internal level tag as
a substring or equals `"Unknown"`. -/
def filtered_chunks (store : List Chunk) (selected_area internal_level : String) :
    List (Nat × Chunk) :=
  store.enum.filter (fun p =>
    p.2.metadata.learning_area == selected_area
      && (strIn internal_level p.2.metadata.level || p.2.metadata.level == "Unknown"))

/-- Environment of external collaborators of `query_graph_rag`: the
metadata store loaded at startup, the sentence-transformer constructor
(line 37, which can fail), the `model.encode` function (fallible, since
any Python call inside the `try` of lines 56–62 may raise), and the
faiss `index.search` call, returning one row of (distance, position)
pairs. -/
structure Env where
  metadata_store : List Chunk
  loadModel : Except String Unit
  encode : String → Except String (List Rat)
  search : List Rat → Nat → Except String (List (Rat × Int))

/-- Trace entry for one call to an external collaborator. -/
inductive ExtCall where
  | loadModel : ExtCall
  | encode : String → ExtCall
  | search : List Rat → Nat → ExtCall
deriving DecidableEq, Repr

/-- Line 57 of `app.py`: encode every filtered text in order, stopping
at the first failure, recording the calls made. -/
def encodeTexts (env : Env) : List String → List ExtCall × Except String (List (List Rat))
  | [] => ([], Except.ok [])
  | t :: ts =>
    match env.encode t with
    | Except.error e => ([ExtCall.encode t], Except.error e)
    | Except.ok v =>
      match encodeTexts env ts with
      | (cs, r) => (ExtCall.encode t :: cs, r.map (fun vs => v :: vs))

/-- Python list indexing `l[idx]` for a possibly negative index: a
non-negative index is in range when below the length, a negative index
counts from the end and raises `IndexError` (here `none`) when it
reaches further back than the start of the list. -/
def pyGet (l : List (Nat × Chunk)) (idx : Int) : Option (Nat × Chunk) :=
  if 0 ≤ idx then l.get? idx.toNat
  else if (-idx).toNat ≤ l.length then l.get? (l.length - (-idx).toNat)
  else none

/-- Lines 64–73 of `app.py`: walk the index-returned positions in
order; a position `idx` passing the guard `idx < len(filtered_chunks)`
is looked up with Python indexing semantics (so a negative position
wraps around, or raises, modelled as `none`), and the chunk's id and
text are appended; a position failing the guard is skipped. -/
def buildResults (filtered : List (Nat × Chunk)) : List Int → Option (List Excerpt)
  | [] => some []
  | idx :: rest =>
    if idx < (filtered.length : Int) then
      match pyGet filtered idx with
      | none => none
      | some p => (buildResults filtered rest).map (fun rs => ⟨p.2.id, p.2.text⟩ :: rs)
    else buildResults filtered rest

/-- Outcome of one run of `query_graph_rag`: the returned excerpt list,
the `st.error` diagnostics shown, and the trace of external calls. -/
structure RunResult where
  results : List Excerpt
  errors : List String
  calls : List ExtCall
deriving DecidableEq, Repr

/-- Diagnostic of line 39 of `app.py`. -/
def oopsMsg (e : String) : String :=
  "Oops! Something went wrong with the learning tool: " ++ e

/-- Diagnostic of line 61 of `app.py`. -/
def magicMsg (e : String) : String :=
  "Uh-oh! Trouble with the magic words: " ++ e

/-- Lines 34–73 of `app.py`: the hybrid retriever `query_graph_rag`.
`none` models an uncaught exception (a `KeyError` from the level-map
lookup of line 43, or an `IndexError` from line 67); `some` carries the
returned excerpts, the diagnostics shown, and the external-call
trace. -/
def query_graph_rag (env : Env) (query selected_area selected_level : String)
    (top_k : Nat) : Option RunResult :=
  match env.loadModel with
  | Except.error e => some ⟨[], [oopsMsg e], [ExtCall.loadModel]⟩
  | Except.ok _ =>
    match level_map.lookup selected_level with
    | none => none
    | some internal =>
      let filtered := filtered_chunks env.metadata_store selected_area internal
      if filtered.isEmpty then some ⟨[], [], [ExtCall.loadModel]⟩
      else
        let texts := filtered.map (fun p => p.2.text)
        match encodeTexts env texts with
        | (cs, Except.error e) => some ⟨[], [magicMsg e], ExtCall.loadModel :: cs⟩
        | (cs, Except.ok _) =>
          match env.encode query with
          | Except.error e =>
              some ⟨[], [magicMsg e], ExtCall.loadModel :: cs ++ [ExtCall.encode query]⟩
          | Except.ok qe =>
            match env.search qe top_k with
            | Except.error e =>
                some ⟨[], [magicMsg e],
                  ExtCall.loadModel :: cs ++ [ExtCall.encode query, ExtCall.search qe top_k]⟩
            | Except.ok pairs =>
              match buildResults filtered (pairs.map (fun p => p.2)) with
              | none => none
              | some rs =>
                  some ⟨rs, [],
                    ExtCall.loadModel :: cs ++ [ExtCall.encode query, ExtCall.search qe top_k]⟩

/-- Variant of `query_graph_rag` that omits the filtered-subset
embedding step of line 57 (the `filtered_embeddings` computation) and is
otherwise identical; used to state the refinement claim about that
step. -/
def query_graph_rag_noembed (env : Env) (query selected_area selected_level : String)
    (top_k : Nat) : Option RunResult :=
  match env.loadModel with
  | Except.error e => some ⟨[], [oopsMsg e], [ExtCall.loadModel]⟩
  | Except.ok _ =>
    match level_map.lookup selected_level with
    | none => none
    | some internal =>
      let filtered := filtered_chunks env.metadata_store selected_area internal
      if filtered.isEmpty then some ⟨[], [], [ExtCall.loadModel]⟩
      else
        match env.encode query with
        | Except.error e =>
            some ⟨[], [magicMsg e], [ExtCall.loadModel, ExtCall.encode query]⟩
        | Except.ok qe =>
          match env.search qe top_k with
          | Except.error e =>
              some ⟨[], [magicMsg e],
                [ExtCall.loadModel, ExtCall.encode query, ExtCall.search qe top_k]⟩
          | Except.ok pairs =>
            match buildResults filtered (pairs.map (fun p => p.2)) with
            | none => none
            | some rs =>
                some ⟨rs, [],
                  [ExtCall.loadModel, ExtCall.encode query, ExtCall.search qe top_k]⟩

/-- Excerpts of a run outcome; an uncaught exception yields none. -/
def retResults : Option RunResult → List Excerpt
  | some r => r.results
  | none => []

/-- Diagnostics of a run outcome. -/
def retErrors : Option RunResult → List String
  | some r => r.errors
  | none => []

/-- External-call trace of a run outcome. -/
def retCalls : Option RunResult → List ExtCall
  | some r => r.calls
  | none => []

/-- Number of vector-index searches in a trace. -/
def numSearches (tr : List ExtCall) : Nat :=
  tr.countP (fun c => match c with | ExtCall.search _ _ => true | _ => false)

/-- Number of embedding calls in a trace. -/
def numEncodes (tr : List ExtCall) : Nat :=
  tr.countP (fun c => match c with | ExtCall.encode _ => true | _ => false)

/-- Model of Python `str.lower()` on the basic latin range (all
keywords and queries of interest are ASCII): lower-case every
character. -/
def pyLower (s : String) : String :=
  ⟨s.data.map Char.toLower⟩

/-- Lines 236–240 of `app.py`: the static keyword table. -/
def subject_keywords : List (String × List String) :=
  [("English", ["reading", "writing", "story", "words", "sentence", "book", "letter"]),
   ("Mathematics", ["number", "count", "add", "subtract", "multiply", "divide", "shape"]),
   ("Science", ["plant", "animal", "weather", "space", "rock", "water", "light", "sound"])]

/-- Keyword list configured for a subject, empty when the subject is
absent from the table (`subject_keywords.get(subject, [])`). -/
def keywordsFor (subject : String) : List String :=
  (subject_keywords.lookup subject).getD []

/-- Lines 242–244 of `app.py`: the relevance gate.  Lower-case the query
and test whether any configured keyword for the subject occurs in it. -/
def is_query_relevant (query subject : String) : Bool :=
  let query_lower := pyLower query
  (keywordsFor subject).any (fun kw => strIn kw query_lower)

/-- Interface assumption on the vector index, following the spec's data
model of the Vector Index: a successful search for `k` neighbours
returns at most `k` pairs whose positions are distinct 0-based store
offsets (hence non-negative). -/
def IndexOk (env : Env) : Prop :=
  ∀ qe k pairs, env.search qe k = Except.ok pairs →
    pairs.length ≤ k ∧ (pairs.map (fun p => p.2)).Nodup ∧
      ∀ i ∈ pairs.map (fun p => p.2), 0 ≤ i

/-- Pairs of the search result whose position passes the bounds guard of
line 66, in index order. -/
def keptPairs (n : Nat) (pairs : List (Rat × Int)) : List (Rat × Int) :=
  pairs.filter (fun p => p.2 < (n : Int))

/-- Excerpt built from a position into the filtered view, with Python
indexing semantics; a dummy excerpt stands for the unreachable
out-of-range case. -/
def excerptAt (filtered : List (Nat × Chunk)) (i : Int) : Excerpt :=
  match pyGet filtered i with
  | some p => ⟨p.2.id, p.2.text⟩
  | none => ⟨"", ""⟩

/-- Tiny store used by the concrete witnesses: one Science chunk tagged
Level 2. -/
def wStore : List Chunk := [⟨"c1", "Plants need water", ⟨"Science", "Level 2"⟩⟩]

/-- Witness environment whose collaborators all succeed and whose index
returns no neighbours. -/
def wEnv : Env :=
  ⟨wStore, Except.ok (), fun _ => Except.ok [], fun _ _ => Except.ok []⟩

/-- Witness environment whose index truncates its single stored pair
(distance 0, position 0) to the requested neighbour count. -/
def wEnvHit : Env :=
  ⟨wStore, Except.ok (), fun _ => Except.ok [],
   fun _ k => Except.ok (List.take k [((0 : Rat), (0 : Int))])⟩

/-- Witness environment whose model constructor fails. -/
def wEnvLoadFail : Env :=
  ⟨wStore, Except.error "down", fun _ => Except.ok [], fun _ _ => Except.ok []⟩

/-- Witness environment whose embedding function fails exactly on the
stored chunk's text but succeeds on the query "q". -/
def wEnvEncodeChunkFail : Env :=
  ⟨wStore, Except.ok (),
   fun t => if t = "q" then Except.ok [1] else Except.error "boom",
   fun _ _ => Except.ok [((0 : Rat), (0 : Int))]⟩

/-- Witness environment with an empty store. -/
def wEnvEmpty : Env :=
  ⟨[], Except.ok (), fun _ => Except.ok [], fun _ _ => Except.ok []⟩

/-- Characterisation of `strStarts`: the second list starts with the
first. -/
theorem strStarts_iff (p s : List Char) : strStarts p s = true ↔ ∃ t, s = p ++ t := by
  induction p generalizing s with
  | nil => simp [strStarts]
  | cons a as ih =>
    cases s with
    | nil =>
      simp [strStarts]
    | cons b bs =>
      simp only [strStarts, Bool.and_eq_true, beq_iff_eq, ih]
      constructor
      · rintro ⟨rfl, t, rfl⟩
        exact ⟨t, rfl⟩
      · rintro ⟨t, h⟩
        injection h with h1 h2
        subst h1
        subst h2
        exact ⟨rfl, t, rfl⟩

/-- Characterisation of `strOccurs`: contiguous occurrence, i.e. the
Python `in` operator on strings. -/
theorem strOccurs_iff (p s : List Char) : strOccurs p s = true ↔ ∃ a b, s = a ++ p ++ b := by
  induction s with
  | nil =>
    simp only [strOccurs, strStarts_iff]
    constructor
    · rintro ⟨t, ht⟩
      exact ⟨[], t, by simpa using ht⟩
    · rintro ⟨a, b, h⟩
      refine ⟨b, ?_⟩
      rcases List.append_eq_nil.mp h.symm with ⟨h1, h2⟩
      rcases List.append_eq_nil.mp h1 with ⟨rfl, rfl⟩
      simpa using h
  | cons c cs ih =>
    simp only [strOccurs, Bool.or_eq_true, strStarts_iff, ih]
    constructor
    · rintro (⟨t, ht⟩ | ⟨a, b, hab⟩)
      · exact ⟨[], t, by simpa using ht⟩
      · exact ⟨c :: a, b, by simp [hab]⟩
    · rintro ⟨a, b, hab⟩
      cases a with
      | nil =>
        left
        exact ⟨b, by simpa using hab⟩
      | cons x xs =>
        right
        injection hab with h1 h2
        exact ⟨xs, b, by simp [h2]⟩

/-- The basic-latin lower-casing of a character changes nothing outside
the upper-case range. -/
theorem toLower_fixed {c : Char} (h : ¬(65 ≤ c.toNat ∧ c.toNat ≤ 90)) :
    Char.toLower c = c := by
  unfold Char.toLower
  exact if_neg h

/-- Code point of the lower-cased character of an upper-case letter. -/
theorem toLower_toNat_of_upper {c : Char} (h1 : 65 ≤ c.toNat) (h2 : c.toNat ≤ 90) :
    (Char.toLower c).toNat = c.toNat + 32 := by
  have hv : Nat.isValidChar (c.toNat + 32) := Or.inl (by omega)
  unfold Char.toLower
  rw [if_pos ⟨h1, h2⟩]
  show (Char.ofNat (c.toNat + 32)).toNat = c.toNat + 32
  unfold Char.ofNat
  rw [dif_pos hv]
  rfl

/-- Lower-casing a character is idempotent. -/
theorem toLower_idem (c : Char) : Char.toLower (Char.toLower c) = Char.toLower c := by
  by_cases h : 65 ≤ c.toNat ∧ c.toNat ≤ 90
  · have ht := toLower_toNat_of_upper h.1 h.2
    apply toLower_fixed
    rw [ht]
    omega
  · rw [toLower_fixed h, toLower_fixed h]

/-- Lower-casing a string is idempotent. -/
theorem pyLower_idem (s : String) : pyLower (pyLower s) = pyLower s := by
  show String.mk ((s.data.map Char.toLower).map Char.toLower) = String.mk (s.data.map Char.toLower)
  rw [List.map_map]
  congr 1
  apply List.map_congr_left
  intro a _
  exact toLower_idem a

/-- Reconciliation loop on non-negative positions: no wrap-around and no
IndexError can occur, so the loop returns the excerpts of the in-bounds
positions, in the order received. -/
theorem buildResults_nonneg (filtered : List (Nat × Chunk)) (idxs : List Int)
    (h : ∀ i ∈ idxs, 0 ≤ i) :
    buildResults filtered idxs =
      some ((idxs.filter (fun i => i < (filtered.length : Int))).map (excerptAt filtered)) := by
  induction idxs with
  | nil => rfl
  | cons idx rest ih =>
    have h0 : 0 ≤ idx := h idx (List.mem_cons_self _ _)
    have hrest : ∀ i ∈ rest, 0 ≤ i := fun i hi => h i (List.mem_cons_of_mem _ hi)
    unfold buildResults
    by_cases hlt : idx < (filtered.length : Int)
    · rw [if_pos hlt]
      have hnat : idx.toNat < filtered.length := by omega
      obtain ⟨p, hp⟩ : ∃ p, filtered.get? idx.toNat = some p :=
        ⟨_, List.get?_eq_get hnat⟩
      have hpy : pyGet filtered idx = some p := by
        unfold pyGet
        rw [if_pos h0]
        exact hp
      have he : excerptAt filtered idx = ⟨p.2.id, p.2.text⟩ := by
        unfold excerptAt
        rw [hpy]
      rw [hpy, ih hrest]
      simp [List.filter_cons, hlt, he]
    · rw [if_neg hlt]
      rw [ih hrest]
      simp [List.filter_cons, hlt]

/-- A duplicate-free list of non-negative integers all below `n` has at
most `n` elements; applied to the positions passing the bounds guard. -/
theorem nodup_filter_length_le (idxs : List Int) (n : Nat)
    (hnd : idxs.Nodup) (hpos : ∀ i ∈ idxs, 0 ≤ i) :
    (idxs.filter (fun i => i < (n : Int))).length ≤ n := by
  set kept := idxs.filter (fun i => i < (n : Int)) with hk
  have hknd : kept.Nodup := hnd.filter _
  have hmem : ∀ i ∈ kept, 0 ≤ i ∧ i < (n : Int) := by
    intro i hi
    have h1 := List.of_mem_filter hi
    have h2 := List.mem_of_mem_filter hi
    exact ⟨hpos i h2, by simpa using h1⟩
  have hmapnd : (kept.map Int.toNat).Nodup := by
    refine List.Nodup.map_on ?_ hknd
    intro x hx y hy hxy
    have h1 := (hmem x hx).1
    have h2 := (hmem y hy).1
    omega
  have hsub : (kept.map Int.toNat).toFinset ⊆ Finset.range n := by
    intro m hm
    rw [Finset.mem_range]
    rcases List.mem_map.mp (List.mem_toFinset.mp hm) with ⟨i, hi, rfl⟩
    have := hmem i hi
    omega
  have hcard := Finset.card_le_card hsub
  rw [Finset.card_range, List.toFinset_card_of_nodup hmapnd] at hcard
  calc kept.length = (kept.map Int.toNat).length := by simp
    _ ≤ n := hcard

/-- Filtering the positions of a search row commutes with projecting the
positions out of the (distance, position) pairs. -/
theorem keptPairs_snd (n : Nat) (pairs : List (Rat × Int)) :
    (pairs.map (fun p => p.2)).filter (fun i => i < (n : Int)) =
      (keptPairs n pairs).map (fun p => p.2) := by
  induction pairs with
  | nil => rfl
  | cons p ps ih =>
    unfold keptPairs at ih ⊢
    by_cases h : p.2 < (n : Int)
    · simp [List.filter_cons, h, ih]
    · simp [List.filter_cons, h, ih]

/-- The per-text embedding loop performs no vector-index search. -/
theorem numSearches_encodeTexts (env : Env) (ts : List String) :
    numSearches (encodeTexts env ts).1 = 0 := by
  induction ts with
  | nil => rfl
  | cons t ts ih =>
    unfold encodeTexts
    cases h : env.encode t with
    | error e => rfl
    | ok v =>
      cases he : encodeTexts env ts with
      | mk cs r =>
        rw [he] at ih
        simpa [numSearches, List.countP_cons] using ih

/-- When every embedding call succeeds, the per-text embedding loop
succeeds. -/
theorem encodeTexts_ok (env : Env) (ts : List String)
    (hE : ∀ t, ∃ v, env.encode t = Except.ok v) :
    ∃ embs, (encodeTexts env ts).2 = Except.ok embs := by
  induction ts with
  | nil => exact ⟨[], rfl⟩
  | cons t ts ih =>
    obtain ⟨v, hv⟩ := hE t
    obtain ⟨embs, hembs⟩ := ih
    unfold encodeTexts
    rw [hv]
    cases he : encodeTexts env ts with
    | mk cs r =>
      rw [he] at hembs
      simp only at hembs
      exact ⟨v :: embs, by simp [hembs, Except.map]⟩

/-- C1: the Level Map sends "Foundation" to "Foundation" and "Year i" to
"Level i" for every i in 1..10, is injective on its keys and values, and
translating any user-facing label to its internal tag and back recovers
the label.  The property is proved of the spec-modelled `level_map`,
since the line of `app.py` meant to build the map (line 42) is a syntax
error and builds nothing. -/
theorem c1_level_map_bijection :
    level_map.lookup "Foundation" = some "Foundation" ∧
      (∀ i ∈ List.range 10,
        level_map.lookup ("Year " ++ toString (i + 1)) = some ("Level " ++ toString (i + 1))) ∧
      (∀ L ∈ levels, (level_map.lookup L).bind level_map_inv = some L) ∧
      (level_map.map (fun p => p.1)).Nodup ∧ (level_map.map (fun p => p.2)).Nodup := by
  refine ⟨rfl, by decide, by decide, by decide, by decide⟩

/-- Witness for C1: the concrete translations of "Year 3" and
"Foundation", and the round trip at "Year 10". -/
theorem c1_level_map_bijection_witness :
    level_map.lookup ("Year " ++ toString (2 + 1)) = some ("Level " ++ toString (2 + 1)) ∧
      (level_map.lookup "Year 10").bind level_map_inv = some "Year 10" :=
  ⟨c1_level_map_bijection.2.1 2 (by decide),
   c1_level_map_bijection.2.2.1 "Year 10" (by decide)⟩

/-- C5: a pair `(i, chunk)` is in the Filtered View iff `chunk` is the
`i`-th chunk of the store, its learning area equals the requested area,
and either the internal level tag occurs as a substring of the chunk's
level field or that field equals "Unknown". -/
theorem c5_filter_membership (store : List Chunk) (area internal : String)
    (i : Nat) (c : Chunk) :
    (i, c) ∈ filtered_chunks store area internal ↔
      store[i]? = some c ∧ c.metadata.learning_area = area ∧
        ((∃ a b, c.metadata.level.data = a ++ internal.data ++ b) ∨
          c.metadata.level = "Unknown") := by
  unfold filtered_chunks
  rw [List.mem_filter]
  simp only [List.mem_enum_iff_getElem?, Bool.and_eq_true, Bool.or_eq_true, beq_iff_eq,
    strIn, strOccurs_iff]

/-- C10: because level membership is substring containment, a chunk
tagged "Level 10" is included in the Filtered View when filtering for
the internal level tag "Level 1" (the tag of the user-facing "Year 1"),
although its tag differs from "Level 1". -/
theorem c10_level_tag_confusion :
    strIn "Level 1" "Level 10" = true ∧
      level_map.lookup "Year 1" = some "Level 1" ∧
      filtered_chunks [⟨"c1", "txt", ⟨"Science", "Level 10"⟩⟩] "Science" "Level 1" =
        [(0, ⟨"c1", "txt", ⟨"Science", "Level 10"⟩⟩)] ∧
      ("Level 10" : String) ≠ "Level 1" := by
  refine ⟨by decide, by decide, by decide, by decide⟩

/-- C6: the relevance gate returns true iff some keyword configured for
the subject occurs as a substring of the lower-cased query; a subject
absent from the keyword table yields false for every query; in
particular the query "CPU" is not relevant to "Science". -/
theorem c6_relevance_gate :
    (∀ q s, is_query_relevant q s = true ↔
        ∃ kw ∈ keywordsFor s, ∃ a b, (pyLower q).data = a ++ kw.data ++ b) ∧
      (∀ q s, subject_keywords.lookup s = none → is_query_relevant q s = false) ∧
      is_query_relevant "CPU" "Science" = false := by
  refine ⟨?_, ?_, by decide⟩
  · intro q s
    unfold is_query_relevant
    rw [List.any_eq_true]
    simp only [strIn, strOccurs_iff]
  · intro q s hnone
    unfold is_query_relevant keywordsFor
    rw [hnone]
    rfl

/-- Witness for C6: applying the characterisation at the absent subject
"History" and at the concrete query "CPU". -/
theorem c6_relevance_gate_witness :
    is_query_relevant "what is a plant" "History" = false ∧
      is_query_relevant "CPU" "Science" = false :=
  ⟨c6_relevance_gate.2.1 "what is a plant" "History" rfl, c6_relevance_gate.2.2⟩

/-- C7: the relevance gate is case-insensitive in its query argument:
lower-casing the query first does not change the verdict; in particular
"PLANT life" and "plant life" agree for "Science". -/
theorem c7_relevance_case_insensitive :
    (∀ q s, is_query_relevant q s = is_query_relevant (pyLower q) s) ∧
      is_query_relevant "PLANT life" "Science" = is_query_relevant "plant life" "Science" := by
  refine ⟨?_, by decide⟩
  intro q s
  unfold is_query_relevant
  rw [pyLower_idem]

/-- Shape of a fully successful run of `query_graph_rag`: the outcome is
the reconciliation loop's output over the returned positions, with no
diagnostics and one search in the trace. -/
theorem qgr_success (env : Env) (q area lvl internal : String) (k : Nat)
    (qe : List Rat) (pairs : List (Rat × Int)) (cs : List ExtCall) (embs : List (List Rat))
    (hload : env.loadModel = Except.ok ())
    (hl : level_map.lookup lvl = some internal)
    (hkne : (filtered_chunks env.metadata_store area internal).isEmpty = false)
    (henc : encodeTexts env
        ((filtered_chunks env.metadata_store area internal).map (fun p => p.2.text)) =
        (cs, Except.ok embs))
    (hq : env.encode q = Except.ok qe)
    (hs : env.search qe k = Except.ok pairs) :
    query_graph_rag env q area lvl k =
      Option.map
        (fun rs => ⟨rs, [], ExtCall.loadModel :: cs ++ [ExtCall.encode q, ExtCall.search qe k]⟩)
        (buildResults (filtered_chunks env.metadata_store area internal)
          (pairs.map (fun p => p.2))) := by
  unfold query_graph_rag
  rw [hload, hl]
  simp only [hkne, Bool.false_eq_true, if_false, henc, hq, hs]
  cases buildResults (filtered_chunks env.metadata_store area internal)
      (pairs.map (fun p => p.2)) with
  | none => rfl
  | some rs => rfl

/-- C2: with a valid level, a positive neighbour count and a non-empty
Filtered View, and an index meeting the spec's interface (at most `k`
distinct non-negative store positions), the retriever does not raise and
returns at most `min top_k |FilteredView|` excerpts; index positions
beyond the Filtered View are dropped by the bounds guard rather than
raising. -/
theorem c2_retrieve_length_bound (env : Env) (q area lvl internal : String) (k : Nat)
    (hl : level_map.lookup lvl = some internal)
    (hIx : IndexOk env) (_h0k : 0 < k)
    (hne : filtered_chunks env.metadata_store area internal ≠ []) :
    (query_graph_rag env q area lvl k).isSome = true ∧
      (retResults (query_graph_rag env q area lvl k)).length ≤
        min k (filtered_chunks env.metadata_store area internal).length := by
  have hkne : (filtered_chunks env.metadata_store area internal).isEmpty = false := by
    simpa [List.isEmpty_iff] using hne
  cases hload : env.loadModel with
  | error e =>
    unfold query_graph_rag
    rw [hload]
    exact ⟨rfl, Nat.zero_le _⟩
  | ok u =>
    cases u
    cases henc : encodeTexts env
        ((filtered_chunks env.metadata_store area internal).map (fun p => p.2.text)) with
    | mk cs r =>
      cases r with
      | error e =>
        unfold query_graph_rag
        rw [hload, hl]
        simp only [hkne, Bool.false_eq_true, if_false, henc]
        exact ⟨rfl, Nat.zero_le _⟩
      | ok embs =>
        cases hq : env.encode q with
        | error e =>
          unfold query_graph_rag
          rw [hload, hl]
          simp only [hkne, Bool.false_eq_true, if_false, henc, hq]
          exact ⟨rfl, Nat.zero_le _⟩
        | ok qe =>
          cases hs : env.search qe k with
          | error e =>
            unfold query_graph_rag
            rw [hload, hl]
            simp only [hkne, Bool.false_eq_true, if_false, henc, hq, hs]
            exact ⟨rfl, Nat.zero_le _⟩
          | ok pairs =>
            obtain ⟨hlen, hnd, hpos⟩ := hIx qe k pairs hs
            have hq2 := qgr_success env q area lvl internal k qe pairs cs embs
              hload hl hkne henc hq hs
            have hb := buildResults_nonneg (filtered_chunks env.metadata_store area internal)
              (pairs.map (fun p => p.2)) hpos
            rw [hb] at hq2
            have h1 : ((pairs.map (fun p => p.2)).filter
                (fun i => i < ((filtered_chunks env.metadata_store area internal).length : Int))).length ≤ k := by
              calc ((pairs.map (fun p => p.2)).filter
                  (fun i => i < ((filtered_chunks env.metadata_store area internal).length : Int))).length
                  ≤ (pairs.map (fun p => p.2)).length := List.length_filter_le _ _
                _ = pairs.length := by simp
                _ ≤ k := hlen
            have h2 := nodup_filter_length_le (pairs.map (fun p => p.2))
              (filtered_chunks env.metadata_store area internal).length hnd hpos
            constructor
            · rw [hq2]
              rfl
            · rw [hq2]
              simpa [retResults] using le_min h1 h2

/-- Witness for C2 at a concrete environment: one stored Science chunk,
level "Year 2", three neighbours requested of an index holding one
vector. -/
theorem c2_retrieve_length_bound_witness :
    (query_graph_rag wEnvHit "q" "Science" "Year 2" 3).isSome = true ∧
      (retResults (query_graph_rag wEnvHit "q" "Science" "Year 2" 3)).length ≤
        min 3 (filtered_chunks wEnvHit.metadata_store "Science" "Level 2").length :=
  c2_retrieve_length_bound wEnvHit "q" "Science" "Year 2" "Level 2" 3 rfl
    (by
      intro qe k pairs h
      injection h with h2
      subst h2
      cases k with
      | zero => simp
      | succ n => simp)
    (by decide) (by decide)

/-- C3: when the Metadata Filter result is empty, the retriever returns
the empty sequence at once: its trace holds only the model-construction
step, so no index search and no embedding is performed. -/
theorem c3_empty_filter_no_search (env : Env) (q area lvl internal : String) (k : Nat)
    (hl : level_map.lookup lvl = some internal)
    (hf : filtered_chunks env.metadata_store area internal = []) :
    retResults (query_graph_rag env q area lvl k) = [] ∧
      retCalls (query_graph_rag env q area lvl k) = [ExtCall.loadModel] ∧
      (query_graph_rag env q area lvl k).isSome = true ∧
      numSearches (retCalls (query_graph_rag env q area lvl k)) = 0 ∧
      numEncodes (retCalls (query_graph_rag env q area lvl k)) = 0 := by
  cases hload : env.loadModel with
  | error e =>
    unfold query_graph_rag
    rw [hload]
    exact ⟨rfl, rfl, rfl, rfl, rfl⟩
  | ok u =>
    cases u
    unfold query_graph_rag
    rw [hload, hl]
    simp only [hf, List.isEmpty_nil, if_true]
    exact ⟨rfl, rfl, rfl, rfl, rfl⟩

/-- Witness for C3: the empty store, subject "Science", level
"Year 2". -/
theorem c3_empty_filter_no_search_witness :
    retResults (query_graph_rag wEnvEmpty "q" "Science" "Year 2" 3) = [] ∧
      retCalls (query_graph_rag wEnvEmpty "q" "Science" "Year 2" 3) = [ExtCall.loadModel] ∧
      (query_graph_rag wEnvEmpty "q" "Science" "Year 2" 3).isSome = true ∧
      numSearches (retCalls (query_graph_rag wEnvEmpty "q" "Science" "Year 2" 3)) = 0 ∧
      numEncodes (retCalls (query_graph_rag wEnvEmpty "q" "Science" "Year 2" 3)) = 0 :=
  c3_empty_filter_no_search wEnvEmpty "q" "Science" "Year 2" "Level 2" 3 rfl rfl

/-- C4: on a successful run whose index row is sorted by non-decreasing
distance and returns non-negative positions, the emitted excerpts are
exactly the in-bounds positions in the order received from the index,
and the distances of the emitted items are monotonically
non-decreasing. -/
theorem c4_order_preserved (env : Env) (q area lvl internal : String) (k : Nat)
    (qe : List Rat) (pairs : List (Rat × Int)) (cs : List ExtCall) (embs : List (List Rat))
    (hload : env.loadModel = Except.ok ())
    (hl : level_map.lookup lvl = some internal)
    (hne : filtered_chunks env.metadata_store area internal ≠ [])
    (henc : encodeTexts env
        ((filtered_chunks env.metadata_store area internal).map (fun p => p.2.text)) =
        (cs, Except.ok embs))
    (hq : env.encode q = Except.ok qe)
    (hs : env.search qe k = Except.ok pairs)
    (hpos : ∀ p ∈ pairs, 0 ≤ p.2)
    (hsort : (pairs.map (fun p => p.1)).Pairwise (fun a b => a ≤ b)) :
    retResults (query_graph_rag env q area lvl k) =
        (keptPairs (filtered_chunks env.metadata_store area internal).length pairs).map
          (fun p => excerptAt (filtered_chunks env.metadata_store area internal) p.2) ∧
      ((keptPairs (filtered_chunks env.metadata_store area internal).length pairs).map
          (fun p => p.1)).Pairwise (fun a b => a ≤ b) ∧
      (query_graph_rag env q area lvl k).isSome = true := by
  have hkne : (filtered_chunks env.metadata_store area internal).isEmpty = false := by
    simpa [List.isEmpty_iff] using hne
  have hq2 := qgr_success env q area lvl internal k qe pairs cs embs hload hl hkne henc hq hs
  have hpos2 : ∀ i ∈ pairs.map (fun p => p.2), 0 ≤ i := by
    intro i hi
    rcases List.mem_map.mp hi with ⟨p, hp, rfl⟩
    exact hpos p hp
  have hb := buildResults_nonneg (filtered_chunks env.metadata_store area internal)
    (pairs.map (fun p => p.2)) hpos2
  rw [hb] at hq2
  refine ⟨?_, ?_, ?_⟩
  · rw [hq2]
    simp only [Option.map_some', retResults]
    rw [keptPairs_snd, List.map_map]
    rfl
  · have h1 : pairs.Pairwise (fun a b => a.1 ≤ b.1) := List.pairwise_map.mp hsort
    have h2 : (keptPairs (filtered_chunks env.metadata_store area internal).length
        pairs).Pairwise (fun a b => a.1 ≤ b.1) := List.Pairwise.filter _ h1
    exact List.pairwise_map.mpr h2
  · rw [hq2]
    rfl

/-- Witness for C4 at a concrete environment: the index returns one
neighbour at distance 0, position 0, and the single stored chunk is
emitted. -/
theorem c4_order_preserved_witness :
    retResults (query_graph_rag wEnvHit "q" "Science" "Year 2" 3) =
        (keptPairs (filtered_chunks wEnvHit.metadata_store "Science" "Level 2").length
            [((0 : Rat), (0 : Int))]).map
          (fun p => excerptAt (filtered_chunks wEnvHit.metadata_store "Science" "Level 2") p.2) ∧
      ((keptPairs (filtered_chunks wEnvHit.metadata_store "Science" "Level 2").length
          [((0 : Rat), (0 : Int))]).map (fun p => p.1)).Pairwise (fun a b => a ≤ b) ∧
      (query_graph_rag wEnvHit "q" "Science" "Year 2" 3).isSome = true :=
  c4_order_preserved wEnvHit "q" "Science" "Year 2" "Level 2" 3 []
    [((0 : Rat), (0 : Int))] [ExtCall.encode "Plants need water"] [[]]
    rfl rfl (by decide) rfl rfl rfl
    (by
      intro p hp
      simp only [List.mem_singleton] at hp
      subst hp
      decide)
    (by simp)

/-- Search count of a trace that starts with the model-construction step
followed by the embedding calls `cs` and a tail `rest`. -/
theorem numSearches_trace (cs rest : List ExtCall) :
    numSearches (ExtCall.loadModel :: cs ++ rest) = numSearches cs + numSearches rest := by
  simp [numSearches, List.countP_cons, List.countP_append]

/-- Prepending the model-construction step does not change the search
count of a trace. -/
theorem numSearches_loadCons (tr : List ExtCall) :
    numSearches (ExtCall.loadModel :: tr) = numSearches tr := by
  simp [numSearches, List.countP_cons]

/-- Search count of the tail holding only the query-embedding call. -/
theorem numSearches_tailEncode (t : String) :
    numSearches [ExtCall.encode t] = 0 := by
  simp [numSearches, List.countP_cons]

/-- Search count of the tail holding the query-embedding call and one
search. -/
theorem numSearches_tailSearch (t : String) (qe : List Rat) (k : Nat) :
    numSearches [ExtCall.encode t, ExtCall.search qe k] = 1 := by
  simp [numSearches, List.countP_cons]

/-- C8: every failure of the embedding collaborator (the model
constructor of line 37 or any `model.encode` call of lines 57–58) and
every index-search failure of line 59 is caught inside the retriever and
converted into an empty result together with exactly one user-visible
diagnostic; no such failure escapes as an uncaught exception, and the
index is searched at most once in every run (no retry). -/
theorem c8_failures_contained (env : Env) (q area lvl internal : String) (k : Nat)
    (hl : level_map.lookup lvl = some internal) :
    (∀ e, env.loadModel = Except.error e →
        query_graph_rag env q area lvl k = some ⟨[], [oopsMsg e], [ExtCall.loadModel]⟩) ∧
      (∀ e, env.loadModel = Except.ok () →
        filtered_chunks env.metadata_store area internal ≠ [] →
        (encodeTexts env
          ((filtered_chunks env.metadata_store area internal).map (fun p => p.2.text))).2 =
            Except.error e →
        retResults (query_graph_rag env q area lvl k) = [] ∧
          retErrors (query_graph_rag env q area lvl k) = [magicMsg e] ∧
          (query_graph_rag env q area lvl k).isSome = true ∧
          numSearches (retCalls (query_graph_rag env q area lvl k)) = 0) ∧
      (∀ e embs, env.loadModel = Except.ok () →
        filtered_chunks env.metadata_store area internal ≠ [] →
        (encodeTexts env
          ((filtered_chunks env.metadata_store area internal).map (fun p => p.2.text))).2 =
            Except.ok embs →
        env.encode q = Except.error e →
        retResults (query_graph_rag env q area lvl k) = [] ∧
          retErrors (query_graph_rag env q area lvl k) = [magicMsg e] ∧
          (query_graph_rag env q area lvl k).isSome = true ∧
          numSearches (retCalls (query_graph_rag env q area lvl k)) = 0) ∧
      (∀ e embs qe, env.loadModel = Except.ok () →
        filtered_chunks env.metadata_store area internal ≠ [] →
        (encodeTexts env
          ((filtered_chunks env.metadata_store area internal).map (fun p => p.2.text))).2 =
            Except.ok embs →
        env.encode q = Except.ok qe →
        env.search qe k = Except.error e →
        retResults (query_graph_rag env q area lvl k) = [] ∧
          retErrors (query_graph_rag env q area lvl k) = [magicMsg e] ∧
          (query_graph_rag env q area lvl k).isSome = true ∧
          numSearches (retCalls (query_graph_rag env q area lvl k)) = 1) ∧
      numSearches (retCalls (query_graph_rag env q area lvl k)) ≤ 1 := by
  have htex := numSearches_encodeTexts env
    ((filtered_chunks env.metadata_store area internal).map (fun p => p.2.text))
  refine ⟨?_, ?_, ?_, ?_, ?_⟩
  · intro e h
    unfold query_graph_rag
    rw [h]
  · intro e hload hne henc2
    have hkne : (filtered_chunks env.metadata_store area internal).isEmpty = false := by
      simpa [List.isEmpty_iff] using hne
    cases he : encodeTexts env
        ((filtered_chunks env.metadata_store area internal).map (fun p => p.2.text)) with
    | mk cs r =>
      rw [he] at henc2 htex
      simp only at henc2 htex
      subst henc2
      have hrun : query_graph_rag env q area lvl k =
          some ⟨[], [magicMsg e], ExtCall.loadModel :: cs⟩ := by
        unfold query_graph_rag
        rw [hload, hl]
        simp only [hkne, Bool.false_eq_true, if_false, he]
      refine ⟨by rw [hrun]; rfl, by rw [hrun]; rfl, by rw [hrun]; rfl, ?_⟩
      rw [hrun]
      show numSearches (ExtCall.loadModel :: cs) = 0
      rw [numSearches_loadCons, htex]
  · intro e embs hload hne henc2 hq
    have hkne : (filtered_chunks env.metadata_store area internal).isEmpty = false := by
      simpa [List.isEmpty_iff] using hne
    cases he : encodeTexts env
        ((filtered_chunks env.metadata_store area internal).map (fun p => p.2.text)) with
    | mk cs r =>
      rw [he] at henc2 htex
      simp only at henc2 htex
      subst henc2
      have hrun : query_graph_rag env q area lvl k =
          some ⟨[], [magicMsg e], ExtCall.loadModel :: cs ++ [ExtCall.encode q]⟩ := by
        unfold query_graph_rag
        rw [hload, hl]
        simp only [hkne, Bool.false_eq_true, if_false, he, hq]
      refine ⟨by rw [hrun]; rfl, by rw [hrun]; rfl, by rw [hrun]; rfl, ?_⟩
      rw [hrun]
      show numSearches (ExtCall.loadModel :: cs ++ [ExtCall.encode q]) = 0
      rw [numSearches_trace, htex, numSearches_tailEncode]
  · intro e embs qe hload hne henc2 hq hs
    have hkne : (filtered_chunks env.metadata_store area internal).isEmpty = false := by
      simpa [List.isEmpty_iff] using hne
    cases he : encodeTexts env
        ((filtered_chunks env.metadata_store area internal).map (fun p => p.2.text)) with
    | mk cs r =>
      rw [he] at henc2 htex
      simp only at henc2 htex
      subst henc2
      have hrun : query_graph_rag env q area lvl k =
          some ⟨[], [magicMsg e],
            ExtCall.loadModel :: cs ++ [ExtCall.encode q, ExtCall.search qe k]⟩ := by
        unfold query_graph_rag
        rw [hload, hl]
        simp only [hkne, Bool.false_eq_true, if_false, he, hq, hs]
      refine ⟨by rw [hrun]; rfl, by rw [hrun]; rfl, by rw [hrun]; rfl, ?_⟩
      rw [hrun]
      show numSearches
        (ExtCall.loadModel :: cs ++ [ExtCall.encode q, ExtCall.search qe k]) = 1
      rw [numSearches_trace, htex, numSearches_tailSearch]
  · cases hload : env.loadModel with
    | error e =>
      unfold query_graph_rag
      rw [hload]
      show numSearches [ExtCall.loadModel] ≤ 1
      decide
    | ok u =>
      cases u
      by_cases hf : (filtered_chunks env.metadata_store area internal).isEmpty = true
      · unfold query_graph_rag
        rw [hload, hl]
        simp only [hf, if_true]
        show numSearches [ExtCall.loadModel] ≤ 1
        decide
      · have hkne : (filtered_chunks env.metadata_store area internal).isEmpty = false := by
          revert hf
          cases (filtered_chunks env.metadata_store area internal).isEmpty <;> simp
        cases he : encodeTexts env
            ((filtered_chunks env.metadata_store area internal).map (fun p => p.2.text)) with
        | mk cs r =>
          rw [he] at htex
          simp only at htex
          cases r with
          | error e =>
            have hrun : query_graph_rag env q area lvl k =
                some ⟨[], [magicMsg e], ExtCall.loadModel :: cs⟩ := by
              unfold query_graph_rag
              rw [hload, hl]
              simp only [hkne, Bool.false_eq_true, if_false, he]
            rw [hrun]
            show numSearches (ExtCall.loadModel :: cs) ≤ 1
            rw [numSearches_loadCons, htex]
            exact Nat.zero_le 1
          | ok embs =>
            cases hq : env.encode q with
            | error e =>
              have hrun : query_graph_rag env q area lvl k =
                  some ⟨[], [magicMsg e], ExtCall.loadModel :: cs ++ [ExtCall.encode q]⟩ := by
                unfold query_graph_rag
                rw [hload, hl]
                simp only [hkne, Bool.false_eq_true, if_false, he, hq]
              rw [hrun]
              show numSearches (ExtCall.loadModel :: cs ++ [ExtCall.encode q]) ≤ 1
              rw [numSearches_trace, htex, numSearches_tailEncode]
              exact Nat.zero_le 1
            | ok qe =>
              cases hs : env.search qe k with
              | error e =>
                have hrun : query_graph_rag env q area lvl k =
                    some ⟨[], [magicMsg e],
                      ExtCall.loadModel :: cs ++ [ExtCall.encode q, ExtCall.search qe k]⟩ := by
                  unfold query_graph_rag
                  rw [hload, hl]
                  simp only [hkne, Bool.false_eq_true, if_false, he, hq, hs]
                rw [hrun]
                show numSearches
                  (ExtCall.loadModel :: cs ++ [ExtCall.encode q, ExtCall.search qe k]) ≤ 1
                rw [numSearches_trace, htex, numSearches_tailSearch]
              | ok pairs =>
                have hrun : query_graph_rag env q area lvl k =
                    Option.map (fun rs =>
                      ⟨rs, [], ExtCall.loadModel :: cs ++
                        [ExtCall.encode q, ExtCall.search qe k]⟩)
                      (buildResults (filtered_chunks env.metadata_store area internal)
                        (pairs.map (fun p => p.2))) :=
                  qgr_success env q area lvl internal k qe pairs cs embs hload hl hkne he hq hs
                rw [hrun]
                cases buildResults (filtered_chunks env.metadata_store area internal)
                    (pairs.map (fun p => p.2)) with
                | none =>
                  show numSearches (retCalls none) ≤ 1
                  decide
                | some rs =>
                  show numSearches
                    (ExtCall.loadModel :: cs ++ [ExtCall.encode q, ExtCall.search qe k]) ≤ 1
                  rw [numSearches_trace, htex, numSearches_tailSearch]

/-- Witness for C8: an environment whose model constructor fails yields
the empty result and the single diagnostic of line 39. -/
theorem c8_failures_contained_witness :
    query_graph_rag wEnvLoadFail "q" "Science" "Year 2" 3 =
      some ⟨[], [oopsMsg "down"], [ExtCall.loadModel]⟩ :=
  (c8_failures_contained wEnvLoadFail "q" "Science" "Year 2" "Level 2" 3 rfl).1 "down" rfl

/-- C9 counterexample: in an environment whose embedding function fails
on the stored chunk's text but succeeds on the query, the retriever
returns no excerpts while the variant without the filtered-subset
embedding step returns one, so the two do not return the same sequence
of excerpts for every input. -/
theorem c9_unused_embeddings_counterexample :
    retResults (query_graph_rag wEnvEncodeChunkFail "q" "Science" "Year 2" 3) ≠
      retResults (query_graph_rag_noembed wEnvEncodeChunkFail "q" "Science" "Year 2" 3) := by
  decide

/-- C9 amended: the values of the filtered-subset embeddings never reach
the index search, so whenever every per-text embedding call succeeds (in
particular for a total embedding function) the variant without the
filtered-subset embedding step returns exactly the same excerpts, the
same diagnostics, and agrees on raising. -/
theorem c9_unused_embeddings_amended (env : Env) (q area lvl : String) (k : Nat)
    (hE : ∀ t, ∃ v, env.encode t = Except.ok v) :
    retResults (query_graph_rag env q area lvl k) =
        retResults (query_graph_rag_noembed env q area lvl k) ∧
      retErrors (query_graph_rag env q area lvl k) =
        retErrors (query_graph_rag_noembed env q area lvl k) ∧
      (query_graph_rag env q area lvl k).isSome =
        (query_graph_rag_noembed env q area lvl k).isSome := by
  cases hload : env.loadModel with
  | error e =>
    unfold query_graph_rag query_graph_rag_noembed
    rw [hload]
    exact ⟨rfl, rfl, rfl⟩
  | ok u =>
    cases u
    cases hl : level_map.lookup lvl with
    | none =>
      unfold query_graph_rag query_graph_rag_noembed
      rw [hload, hl]
      exact ⟨rfl, rfl, rfl⟩
    | some internal =>
      by_cases hf : (filtered_chunks env.metadata_store area internal).isEmpty = true
      · unfold query_graph_rag query_graph_rag_noembed
        rw [hload, hl]
        simp [hf]
      · have hkne : (filtered_chunks env.metadata_store area internal).isEmpty = false := by
          revert hf
          cases (filtered_chunks env.metadata_store area internal).isEmpty <;> simp
        obtain ⟨embs, hembs⟩ := encodeTexts_ok env
          ((filtered_chunks env.metadata_store area internal).map (fun p => p.2.text)) hE
        cases he : encodeTexts env
            ((filtered_chunks env.metadata_store area internal).map (fun p => p.2.text)) with
        | mk cs r =>
          rw [he] at hembs
          simp only at hembs
          subst hembs
          obtain ⟨qv, hq⟩ := hE q
          cases hs : env.search qv k with
          | error e =>
            unfold query_graph_rag query_graph_rag_noembed
            rw [hload, hl]
            simp [hkne, he, hq, hs, retResults, retErrors]
          | ok pairs =>
            cases hb : buildResults (filtered_chunks env.metadata_store area internal)
                (pairs.map (fun p => p.2)) with
            | none =>
              unfold query_graph_rag query_graph_rag_noembed
              rw [hload, hl]
              simp [hkne, he, hq, hs, hb, retResults, retErrors]
            | some rs =>
              unfold query_graph_rag query_graph_rag_noembed
              rw [hload, hl]
              simp [hkne, he, hq, hs, hb, retResults, retErrors]

/-- Witness for C9's amended statement: a total embedding function on
the one-chunk store. -/
theorem c9_unused_embeddings_witness :
    retResults (query_graph_rag wEnv "q" "Science" "Year 2" 3) =
        retResults (query_graph_rag_noembed wEnv "q" "Science" "Year 2" 3) ∧
      retErrors (query_graph_rag wEnv "q" "Science" "Year 2" 3) =
        retErrors (query_graph_rag_noembed wEnv "q" "Science" "Year 2" 3) ∧
      (query_graph_rag wEnv "q" "Science" "Year 2" 3).isSome =
        (query_graph_rag_noembed wEnv "q" "Science" "Year 2" 3).isSome :=
  c9_unused_embeddings_amended wEnv "q" "Science" "Year 2" 3 (fun _ => ⟨[], rfl⟩)

end VicEduTutor
